import Mathlib

/-!
# Verification of the aster-cli trading engine core

A shallow embedding of `src/engine/tradingEngine.js` (the `TradingEngine`
class).  JavaScript numbers are modelled as rationals (`ℚ`): the spec itself
declares PnL computation "intentionally simplified", and none of the verified
properties depends on IEEE-754 rounding artifacts.  Timestamps are natural
numbers counting milliseconds.  Asynchronous exchange calls are modelled by
explicit environments (oracles) supplying each call's outcome: a successful
call returns its JSON payload, a throwing call returns an error message
(`Except String _`).  `sleep` calls change no state and are modelled by the
durations the code would pass to them.
-/

namespace AsterCli

/-! ## JavaScript primitives -/

/-- `Math.round(q)` : nearest integer, ties towards `+∞` (so `⌊q + 1/2⌋`). -/
def jsRound (q : ℚ) : ℤ := ⌊q + 1/2⌋

/-- Rounding to `p` decimal places in the JS idiom
`Math.round(q * 10^p) / 10^p`. -/
def roundToDecimals (q : ℚ) (p : ℕ) : ℚ := (jsRound (q * 10 ^ p) : ℚ) / 10 ^ p

/-- Whether `pat` occurs at the head of `l` (helper for `jsIncludes`). -/
def headMatches : List Char → List Char → Bool
  | [], _ => true
  | _ :: _, [] => false
  | c :: cs, d :: ds => c == d && headMatches cs ds

/-- Whether `pat` occurs somewhere in `l` (helper for `jsIncludes`). -/
def hasSub (pat : List Char) : List Char → Bool
  | [] => headMatches pat []
  | d :: ds => headMatches pat (d :: ds) || hasSub pat ds

/-- JavaScript `s.includes(pat)` on strings. -/
def jsIncludes (s pat : String) : Bool := hasSub pat.toList s.toList

/-- JavaScript `a || b` for an optional numeric value `a`: `0` is falsy, a
missing (`null`/`undefined`) value is falsy. -/
def jsNumOr (a : Option ℚ) (b : ℚ) : ℚ :=
  match a with
  | none => b
  | some x => if x = 0 then b else x

/-- JavaScript `Math.abs`. -/
def jsAbs (q : ℚ) : ℚ := if q < 0 then -q else q

/-! ## `calculateQuantity` (tradingEngine.js lines 42–61) -/

/-- The symbol-class precision rules of `calculateQuantity`: default `3`,
`3` for a symbol containing `BTC`, else `2` for `ETH`, else `1` for `BNB`. -/
def symbolPrecision (symbol : String) : ℕ :=
  if jsIncludes symbol "BTC" then 3
  else if jsIncludes symbol "ETH" then 2
  else if jsIncludes symbol "BNB" then 1
  else 3

/-- `calculateQuantity(positionSizeUSDT, currentPrice, leverage, symbol)`:
`actualLeverage = leverage || config.leverage || 5`, quantity
`(positionSizeUSDT * actualLeverage) / currentPrice` rounded to the
symbol-class precision. -/
def calculateQuantity (positionSizeUSDT currentPrice : ℚ)
    (leverage configLeverage : Option ℚ) (symbol : String) : ℚ :=
  let actualLeverage := jsNumOr leverage (jsNumOr configLeverage 5)
  let quantity := positionSizeUSDT * actualLeverage / currentPrice
  roundToDecimals quantity (symbolPrecision symbol)

/-! ## `isInsufficientMarginError` (lines 655–665) -/

/-- Lower-case a string character by character (JS `toLowerCase` on the
ASCII error phrases that matter here). -/
def jsToLower (s : String) : String := String.mk (s.toList.map Char.toLower)

/-- `isInsufficientMarginError`: the error message, lower-cased, contains
`code: -2019`, `margin is insufficient` or `insufficient margin`. -/
def isInsufficientMarginError (msg : String) : Bool :=
  let errorStr := jsToLower msg
  jsIncludes errorStr "code: -2019" ||
  jsIncludes errorStr "margin is insufficient" ||
  jsIncludes errorStr "insufficient margin"

/-! ## Order confirmations and `calculatePositionPnL` (lines 625–642) -/

/-- An order confirmation as returned by `placeOrder`.  Each field is
`none` when the JSON field is absent (falsy in the JS `||` chains). -/
structure OrderConf where
  price : Option ℚ
  avgPrice : Option ℚ
  origQty : Option ℚ
  executedQty : Option ℚ
deriving Repr, DecidableEq

/-- The `'LONG'` / `'SHORT'` side strings taken by `calculatePositionPnL`. -/
inductive Side where
  | LONG
  | SHORT
deriving Repr, DecidableEq

/-- `calculatePositionPnL(openOrder, closeOrder, side)`:
open price `openOrder.price || openOrder.avgPrice || 0`, close price
likewise, quantity `openOrder.origQty || openOrder.executedQty || 0`;
`(close - open) * qty` for LONG, `(open - close) * qty` for SHORT. -/
def calculatePositionPnL (openOrder closeOrder : OrderConf) (side : Side) : ℚ :=
  let openPrice := jsNumOr openOrder.price (jsNumOr openOrder.avgPrice 0)
  let closePrice := jsNumOr closeOrder.price (jsNumOr closeOrder.avgPrice 0)
  let quantity := jsNumOr openOrder.origQty (jsNumOr openOrder.executedQty 0)
  match side with
  | .LONG => (closePrice - openPrice) * quantity
  | .SHORT => (openPrice - closePrice) * quantity

/-! ## Inter-leg jitter delay (line 406) -/

/-- `Math.floor(Math.random() * (config.maxDelay - config.minDelay) +
config.minDelay)`, with `r` the value drawn by `Math.random()`
(`0 ≤ r < 1`). -/
def interLegDelay (r : ℚ) (minDelay maxDelay : ℤ) : ℤ :=
  ⌊r * ((maxDelay : ℚ) - (minDelay : ℚ)) + (minDelay : ℚ)⌋

/-! ## Data model

`HedgePair` is one entry of `group.pairs` (account references reduced to the
`accountName` strings the engine uses for client lookup).  `GroupData` is the
mutable per-group record built by `initializeGroup` (lines 118–128); the
`apiClients` array is represented by `accountNames`, since
`apiClients.find(c => c.accountName === n)` succeeds exactly when `n` occurs
in the group's account names.  `PositionPair` is the record built at line
420.  Status strings are kept verbatim: `"open"`, `"closed"`,
`"emergency_closed"`. -/

structure HedgePair where
  pairId : ℕ
  longName : String
  shortName : String
deriving Repr, DecidableEq

structure GroupData where
  id : ℕ
  accountNames : List String
  pairs : List HedgePair
  isActive : Bool
  criticalError : Bool
  retryAfter : Option ℕ
  currentCycle : ℕ
deriving Repr, DecidableEq

structure PositionPair where
  pairId : ℕ
  symbol : String
  openTime : ℕ
  longOrder : OrderConf
  shortOrder : OrderConf
  longName : String
  shortName : String
  quantity : ℚ
  positionSizeUSDT : ℚ
  openPrice : ℚ
  status : String
  closeTime : Option ℕ := none
  closeLongOrder : Option OrderConf := none
  closeShortOrder : Option OrderConf := none
deriving Repr, DecidableEq

/-- An order submission, i.e. one `placeOrder(symbol, side, type, params)`
call: the account it is issued from, and the arguments. -/
structure PlacedOrder where
  accountName : String
  symbol : String
  side : String
  orderType : String
  quantity : ℚ
  reduceOnly : Bool
deriving Repr, DecidableEq

/-- Observer events emitted by the engine (payloads reduced to the fields
the claims are about). -/
inductive Event where
  | positionOpened (pp : PositionPair)
  | insufficientMarginEvt (pairId : ℕ)
  | groupDeactivated (reason : String)
  | criticalGroupError (pairId retryAt : ℕ)
  | positionClosed (pp : PositionPair)
  | closeError (pairId : ℕ)
  | groupReactivated
  | pnlUpdated (cyclePnL totalPnL : ℚ)
deriving Repr, DecidableEq

/-- `apiClients.find(c => c.accountName === name)` succeeds. -/
def hasClient (g : GroupData) (name : String) : Bool :=
  g.accountNames.contains name

/-! ## `openPairPositionWithRetry` (lines 354–472)

One attempt consists of: client lookup (throws if either is missing), a
best-effort `setLeverage` on both accounts (its failure is caught at line
382 and only logged, so it has no modelled effect), `getSymbolPrice`,
`calculateQuantity` (called with `leverage = null`, so the configured
leverage is used), the long `placeOrder`, the inter-leg jitter sleep
(duration `interLegDelay`, no state effect), and the short `placeOrder`.
The outcome of each exchange call is supplied by an `AttemptEnv`. -/

structure AttemptEnv where
  price : Except String ℚ
  longOrderResult : Except String OrderConf
  shortOrderResult : Except String OrderConf

/-- The long leg's open order: market BUY of `q` on the long account. -/
def openLongOrder (pair : HedgePair) (symbol : String) (q : ℚ) : PlacedOrder :=
  { accountName := pair.longName, symbol := symbol, side := "BUY",
    orderType := "MARKET", quantity := q, reduceOnly := false }

/-- The short leg's open order: market SELL of `q` on the short account. -/
def openShortOrder (pair : HedgePair) (symbol : String) (q : ℚ) : PlacedOrder :=
  { accountName := pair.shortName, symbol := symbol, side := "SELL",
    orderType := "MARKET", quantity := q, reduceOnly := false }

/-- One attempt of the `for (attempt …)` loop body (lines 359–436): either a
`PositionPair` (line 420) or the thrown error's message, together with the
orders submitted during the attempt. -/
def openPairAttempt (g : GroupData) (pair : HedgePair) (symbol : String)
    (size : ℚ) (tcLeverage : Option ℚ) (now : ℕ) (env : AttemptEnv) :
    Except String PositionPair × List PlacedOrder :=
  if hasClient g pair.longName && hasClient g pair.shortName then
    match env.price with
    | .error e => (.error e, [])
    | .ok currentPrice =>
      let quantity := calculateQuantity size currentPrice none tcLeverage symbol
      let longO := openLongOrder pair symbol quantity
      match env.longOrderResult with
      | .error e => (.error e, [longO])
      | .ok lo =>
        let shortO := openShortOrder pair symbol quantity
        match env.shortOrderResult with
        | .error e => (.error e, [longO, shortO])
        | .ok so =>
          (.ok { pairId := pair.pairId, symbol := symbol, openTime := now,
                 longOrder := lo, shortOrder := so,
                 longName := pair.longName, shortName := pair.shortName,
                 quantity := quantity, positionSizeUSDT := size,
                 openPrice := currentPrice, status := "open" },
           [longO, shortO])
  else (.error "Could not find API clients for pair", [])

/-- Result of the retry wrapper: the three outcomes of lines 435, 444
and 453/467. -/
inductive PairResult where
  | success (pp : PositionPair)
  | insufficientMargin (e : String)
  | critical (e : String)
deriving Repr

/-- The retry loop: on a thrown error, abort at once with
`insufficientMargin` when `isInsufficientMarginError` matches; otherwise
retry (after a `1000 * attempt` ms backoff sleep) while fuel remains, and
report `critical` with the last error at the final attempt. -/
def openPairRetryGo (A : ℕ → Except String PositionPair × List PlacedOrder) :
    ℕ → ℕ → PairResult × List PlacedOrder
  | attempt, 0 =>
    let ro := A attempt
    match ro.1 with
    | .ok pp => (.success pp, ro.2)
    | .error e =>
      if isInsufficientMarginError e then (.insufficientMargin e, ro.2)
      else (.critical e, ro.2)
  | attempt, fuel + 1 =>
    let ro := A attempt
    match ro.1 with
    | .ok pp => (.success pp, ro.2)
    | .error e =>
      if isInsufficientMarginError e then (.insufficientMargin e, ro.2)
      else
        let rest := openPairRetryGo A (attempt + 1) fuel
        (rest.1, ro.2 ++ rest.2)

/-- `maxRetries = 3` (line 355). -/
def maxRetries : ℕ := 3

/-- `openPairPositionWithRetry`: attempts numbered `1..maxRetries`. -/
def openPairPositionWithRetry (g : GroupData) (pair : HedgePair)
    (symbol : String) (size : ℚ) (tcLeverage : Option ℚ) (now : ℕ)
    (envs : ℕ → AttemptEnv) : PairResult × List PlacedOrder :=
  openPairRetryGo (fun a => openPairAttempt g pair symbol size tcLeverage now (envs a))
    1 (maxRetries - 1)

/-! ## Close paths (lines 489–526 and 531–577)

The outcome of the two closing `placeOrder` calls for one position is
supplied by a `CloseEnv`. -/

structure CloseEnv where
  closeLong : Except String OrderConf
  closeShort : Except String OrderConf

/-- One iteration of `closePartialGroupPositions` (lines 492–525): both
clients are looked up first and the body is skipped when either is missing;
the long leg is closed by a reduce-only market SELL **at the position's own
symbol**, then the short leg by a reduce-only market BUY; only after both
succeed is `status` set to `"emergency_closed"`.  A failure is caught and
logged, leaving the position unchanged. -/
def closePartialOne (g : GroupData) (env : PositionPair → CloseEnv)
    (p : PositionPair) : PositionPair × List PlacedOrder :=
  if hasClient g p.longName && hasClient g p.shortName then
    let o1 : PlacedOrder := ⟨p.longName, p.symbol, "SELL", "MARKET", p.quantity, true⟩
    match (env p).closeLong with
    | .error _ => (p, [o1])
    | .ok _ =>
      let o2 : PlacedOrder := ⟨p.shortName, p.symbol, "BUY", "MARKET", p.quantity, true⟩
      match (env p).closeShort with
      | .error _ => (p, [o1, o2])
      | .ok _ => ({ p with status := "emergency_closed" }, [o1, o2])
  else (p, [])

/-- `closePartialGroupPositions(groupData, positions)`: each position is
processed independently (per-position `try/catch`), so the loop is the map
of `closePartialOne`. -/
def closePartialGroupPositions (g : GroupData) (positions : List PositionPair)
    (env : PositionPair → CloseEnv) : List PositionPair × List PlacedOrder :=
  (positions.map (fun p => (closePartialOne g env p).1),
   positions.flatMap (fun p => (closePartialOne g env p).2))

/-- One iteration of `closeGroupPositions` (lines 537–574) for an `"open"`
position; non-open positions are not in the filtered list and are left
untouched.  The close orders are submitted **at the `symbol` argument of
`closeGroupPositions`** (the cycle's coin), not at `position.symbol`.  A
missing client makes the corresponding `placeOrder` call throw; any throw
is caught, emits `closeError`, and leaves the position's record unchanged.
On success the record gets `closeTime`, both close confirmations and status
`"closed"`, and `positionClosed` is emitted. -/
def closeGroupOne (g : GroupData) (symbol : String)
    (env : PositionPair → CloseEnv) (now : ℕ) (p : PositionPair) :
    PositionPair × List Event × List PlacedOrder :=
  if p.status == "open" then
    if hasClient g p.longName then
      let o1 : PlacedOrder := ⟨p.longName, symbol, "SELL", "MARKET", p.quantity, true⟩
      match (env p).closeLong with
      | .error _ => (p, [.closeError p.pairId], [o1])
      | .ok clo =>
        if hasClient g p.shortName then
          let o2 : PlacedOrder := ⟨p.shortName, symbol, "BUY", "MARKET", p.quantity, true⟩
          match (env p).closeShort with
          | .error _ => (p, [.closeError p.pairId], [o1, o2])
          | .ok cso =>
            let p' := { p with closeTime := some now, closeLongOrder := some clo,
                               closeShortOrder := some cso, status := "closed" }
            (p', [.positionClosed p'], [o1, o2])
        else (p, [.closeError p.pairId], [o1])
    else (p, [.closeError p.pairId], [])
  else (p, [], [])

/-- Result of the close phase: the updated ledger (`groupPositions` after
the in-place mutations), events and orders in submission sequence. -/
structure ClosePhaseResult where
  ledger : List PositionPair
  events : List Event
  orders : List PlacedOrder
deriving Repr

/-- `closeGroupPositions(groupData, symbol)`: iterates (in ledger order)
over `groupPositions.filter(status === 'open')` with a per-position
`try/catch`, hence the map/flatMap of `closeGroupOne`. -/
def closeGroupPositions (g : GroupData) (ledger : List PositionPair)
    (symbol : String) (env : PositionPair → CloseEnv) (now : ℕ) :
    ClosePhaseResult :=
  { ledger := ledger.map (fun p => (closeGroupOne g symbol env now p).1),
    events := ledger.flatMap (fun p => (closeGroupOne g symbol env now p).2.1),
    orders := ledger.flatMap (fun p => (closeGroupOne g symbol env now p).2.2) }

/-! ## `openGroupPositions` (lines 268–349) -/

/-- Loop state of the `for (const pair of groupData.pairs)` loop. -/
structure OpenAcc where
  g : GroupData
  newPositions : List PositionPair
  events : List Event
  orders : List PlacedOrder
  insufficientCount : ℕ
  criticalOccurred : Bool

/-- The pair loop of `openGroupPositions`.  `totalPairs` is
`groupData.pairs.length` (the margin count is compared against the full
pair count, line 302).  A margin outcome that completes the count or a
critical outcome `break`s; a critical outcome additionally sets the
quarantine fields (`retryAfter = now + 10*60*1000`, line 320), emits
`criticalGroupError`, and, when pairs were already opened this cycle,
runs `closePartialGroupPositions` on them (lines 330–333). -/
def openGroupLoop (g0 : GroupData) (totalPairs : ℕ) (symbol : String)
    (size : ℚ) (tcLeverage : Option ℚ) (now : ℕ)
    (pairEnvs : HedgePair → ℕ → AttemptEnv)
    (closeEnv : PositionPair → CloseEnv) :
    List HedgePair → OpenAcc → OpenAcc
  | [], acc => acc
  | pair :: rest, acc =>
    let ro := openPairPositionWithRetry g0 pair symbol size tcLeverage now (pairEnvs pair)
    match ro.1 with
    | .success pp =>
      openGroupLoop g0 totalPairs symbol size tcLeverage now pairEnvs closeEnv rest
        { acc with newPositions := acc.newPositions ++ [pp],
                   events := acc.events ++ [.positionOpened pp],
                   orders := acc.orders ++ ro.2 }
    | .insufficientMargin _ =>
      let count := acc.insufficientCount + 1
      let acc1 := { acc with insufficientCount := count,
                             events := acc.events ++ [.insufficientMarginEvt pair.pairId],
                             orders := acc.orders ++ ro.2 }
      if count = totalPairs then
        { acc1 with g := { acc1.g with isActive := false },
                    events := acc1.events ++ [.groupDeactivated "all_pairs_insufficient_margin"] }
      else
        openGroupLoop g0 totalPairs symbol size tcLeverage now pairEnvs closeEnv rest acc1
    | .critical _ =>
      let retryAt := now + 10 * 60 * 1000
      let g1 := { acc.g with isActive := false, criticalError := true,
                             retryAfter := some retryAt }
      let acc1 := { acc with g := g1, criticalOccurred := true,
                             events := acc.events ++ [.criticalGroupError pair.pairId retryAt],
                             orders := acc.orders ++ ro.2 }
      if acc1.newPositions.isEmpty then acc1
      else
        let closed := closePartialGroupPositions g1 acc1.newPositions closeEnv
        { acc1 with newPositions := closed.1, orders := acc1.orders ++ closed.2 }

/-- The group flags set by the critical-error branch (lines 318–320):
inactive, critical, retry in 10 minutes. -/
def quarantinedState (g : GroupData) (now : ℕ) : GroupData :=
  { g with isActive := false, criticalError := true,
           retryAfter := some (now + 10 * 60 * 1000) }

/-- Result of the whole open phase. -/
structure OpenPhaseResult where
  state : GroupData
  newPositions : List PositionPair
  ledger : List PositionPair
  events : List Event
  orders : List PlacedOrder
  openedCount : ℕ

/-- `openGroupPositions(groupData, symbol, config)`: run the pair loop with
the one sampled `groupPositionSizeUSDT` (line 276); the new positions are
pushed onto `groupPositions` only when no critical error occurred (lines
340–346); the return value is `newPositions.length`. -/
def openGroupPositions (g : GroupData) (ledger : List PositionPair)
    (symbol : String) (size : ℚ) (tcLeverage : Option ℚ) (now : ℕ)
    (pairEnvs : HedgePair → ℕ → AttemptEnv)
    (closeEnv : PositionPair → CloseEnv) : OpenPhaseResult :=
  let acc := openGroupLoop g g.pairs.length symbol size tcLeverage now pairEnvs closeEnv
    g.pairs
    { g := g, newPositions := [], events := [], orders := [],
      insufficientCount := 0, criticalOccurred := false }
  { state := acc.g,
    newPositions := acc.newPositions,
    ledger := if acc.criticalOccurred then ledger else ledger ++ acc.newPositions,
    events := acc.events,
    orders := acc.orders,
    openedCount := acc.newPositions.length }

/-! ## PnL bookkeeping (lines 582–620) -/

structure TradeRecord where
  cycle : ℕ
  timestamp : ℕ
  pnl : ℚ
  positions : ℕ
deriving Repr, DecidableEq

structure GroupPnL where
  totalPnL : ℚ
  trades : List TradeRecord
  currentCycle : ℕ
deriving Repr, DecidableEq

/-- The per-position contribution summed at lines 594–597: the long leg's
PnL from `(longOrder, closeLongOrder)` plus the short leg's from
`(shortOrder, closeShortOrder)`.  A missing close confirmation makes the
JS `closeOrder.price` access throw inside `calculatePositionPnL`'s
`try/catch`, which returns `0` for that leg. -/
def pairClosedPnL (p : PositionPair) : ℚ :=
  (match p.closeLongOrder with
   | some c => calculatePositionPnL p.longOrder c .LONG
   | none => 0) +
  (match p.closeShortOrder with
   | some c => calculatePositionPnL p.shortOrder c .SHORT
   | none => 0)

/-- `updateGroupPnL(groupData)`: sums `pairClosedPnL` over **every** ledger
position whose status is `"closed"`, adds the sum to the running total,
appends a trade record `{cycle, timestamp, pnl, positions}` and emits
`pnlUpdated`. -/
def updateGroupPnL (g : GroupData) (ledger : List PositionPair)
    (pnl : GroupPnL) (now : ℕ) : GroupPnL × List Event :=
  let closedPositions := ledger.filter (fun p => p.status == "closed")
  let cyclePnL := (closedPositions.map pairClosedPnL).sum
  let total := pnl.totalPnL + cyclePnL
  ({ totalPnL := total,
     trades := pnl.trades ++ [{ cycle := g.currentCycle + 1, timestamp := now,
                                pnl := cyclePnL, positions := closedPositions.length }],
     currentCycle := g.currentCycle + 1 },
   [.pnlUpdated cyclePnL total])

/-! ## Quarantine poll (lines 147–168) -/

/-- The quarantine poll interval: `await this.sleep(30000)` (line 155). -/
def quarantinePollMs : ℕ := 30000

/-- One execution of the `if (groupData.criticalError && groupData.retryAfter)`
block at the top of the `while` loop of `startGroupTrading`.  Returns the
new state, the events emitted, and `some d` when the branch sleeps `d` ms
and `continue`s.  When `now` has reached `retryAfter`, the group is
reactivated: `isActive := true`, `criticalError := false`,
`retryAfter := null`, one `groupReactivated` event. -/
def quarantinePoll (now : ℕ) (st : GroupData) : GroupData × List Event × Option ℕ :=
  match st.retryAfter with
  | some t =>
    if st.criticalError then
      if now < t then (st, [], some quarantinePollMs)
      else ({ st with isActive := true, criticalError := false, retryAfter := none },
            [.groupReactivated], none)
    else (st, [], none)
  | none => (st, [], none)

/-! ## `closeAllPositions` (lines 751–873) -/

/-- One live position as returned by `getPositions` (its `positionAmt`
string already parsed). -/
structure RawPosition where
  symbol : String
  positionAmt : ℚ
deriving Repr, DecidableEq

/-- A configured account, as supplied by the account manager. -/
structure CliAccount where
  accountName : String
  apiKey : String
  secretKey : String
deriving Repr, DecidableEq

/-- Exchange behaviour for one account during `closeAllPositions`: the
outcome of its `getPositions` call and of the close `placeOrder` for each
position. -/
structure FlattenEnv where
  positions : Except String (List RawPosition)
  orderResult : RawPosition → Except String Unit

/-- The dust threshold of line 799: positions with `|positionAmt| ≤ 0.001`
are discarded. -/
def dustThreshold : ℚ := 1/1000

/-- The close order of lines 818–829: reduce-only market order on the side
opposite the position's sign, for the absolute position size. -/
def flattenOrder (acct : CliAccount) (p : RawPosition) : PlacedOrder :=
  { accountName := acct.accountName, symbol := p.symbol,
    side := if p.positionAmt > 0 then "SELL" else "BUY",
    orderType := "MARKET", quantity := jsAbs p.positionAmt, reduceOnly := true }

/-- Accumulated outcome of processing (part of) the account list: the
`success` flag, `closedCount` and `errors` of the JS result object, plus
the trace of submitted orders. -/
structure FlattenOutcome where
  ok : Bool
  closedCount : ℕ
  errors : List String
  orders : List PlacedOrder
deriving Repr, DecidableEq

def emptyOutcome : FlattenOutcome := { ok := true, closedCount := 0, errors := [], orders := [] }

def appendOutcome (a b : FlattenOutcome) : FlattenOutcome :=
  { ok := a.ok && b.ok, closedCount := a.closedCount + b.closedCount,
    errors := a.errors ++ b.errors, orders := a.orders ++ b.orders }

/-- Closing one non-dust position (lines 810–843): the order is submitted;
on success `closedCount` is incremented, on failure an error string is
pushed and `result.success` is cleared, and the loop continues. -/
def processRawPosition (acct : CliAccount) (env : FlattenEnv)
    (p : RawPosition) : FlattenOutcome :=
  let o := flattenOrder acct p
  match env.orderResult p with
  | .ok _ => { ok := true, closedCount := 1, errors := [], orders := [o] }
  | .error e =>
    { ok := false, closedCount := 0,
      errors := ["平仓失败 " ++ p.symbol ++ " (" ++ acct.accountName ++ "): " ++ e],
      orders := [o] }

/-- Processing one account (lines 772–854): an account whose `apiKey`
equals its `secretKey` is skipped with an error pushed (but `success` left
alone, lines 777–783); a throwing `getPositions` is caught, pushes an
error and clears `success` (lines 845–850); otherwise the dust filter is
applied and each remaining position closed independently. -/
def processAccount (acct : CliAccount) (env : FlattenEnv) : FlattenOutcome :=
  if acct.apiKey = acct.secretKey then
    { ok := true, closedCount := 0,
      errors := ["Account " ++ acct.accountName ++
        " has invalid API key configuration (identical apiKey and secretKey)"],
      orders := [] }
  else
    match env.positions with
    | .error e =>
      { ok := false, closedCount := 0,
        errors := ["账户处理失败 " ++ acct.accountName ++ ": " ++ e], orders := [] }
    | .ok ps =>
      let openPositions := ps.filter (fun p => dustThreshold < jsAbs p.positionAmt)
      (openPositions.map (processRawPosition acct env)).foldr appendOutcome emptyOutcome

/-- The aggregated result object of `closeAllPositions`. -/
structure CloseAllResult where
  success : Bool
  closedCount : ℕ
  errors : List String
  orders : List PlacedOrder
deriving Repr, DecidableEq

/-- `closeAllPositions()`: with no accounts the initial result is returned
(lines 764–767); otherwise every account is processed in order — a failure
on one account only marks the shared result and never stops the loop — and
the one aggregated result is returned. -/
def closeAllPositions (accounts : List (CliAccount × FlattenEnv)) : CloseAllResult :=
  match accounts with
  | [] => { success := true, closedCount := 0, errors := [], orders := [] }
  | _ =>
    let total := (accounts.map (fun ae => processAccount ae.1 ae.2)).foldr
      appendOutcome emptyOutcome
    { success := total.ok, closedCount := total.closedCount,
      errors := total.errors, orders := total.orders }

/-- Whether an `Except` is a success (`Except.isOk`, spelled out). -/
def exceptOk {α : Type} (e : Except String α) : Bool :=
  match e with
  | .ok _ => true
  | .error _ => false

/-- Whether both close legs of a `CloseEnv` succeed. -/
def closeBothOk (e : CloseEnv) : Bool :=
  exceptOk e.closeLong && exceptOk e.closeShort

/-! ## Concrete fixtures for the PnL double-count scenario (claim C4) -/

/-- An order confirmation with a `price` and optionally an `origQty`. -/
def mkConf (pr : ℚ) (q : Option ℚ) : OrderConf :=
  { price := some pr, avgPrice := none, origQty := q, executedQty := none }

/-- A pair closed in cycle 1: long leg 100→110 on quantity 1 (PnL `10`),
short leg 100→100 (PnL `0`). -/
def c4Pos1 : PositionPair :=
  { pairId := 1, symbol := "BTCUSDT", openTime := 0,
    longOrder := mkConf 100 (some 1), shortOrder := mkConf 100 (some 1),
    longName := "A", shortName := "B", quantity := 1, positionSizeUSDT := 400,
    openPrice := 100, status := "closed", closeTime := some 10,
    closeLongOrder := some (mkConf 110 none),
    closeShortOrder := some (mkConf 100 none) }

/-- A pair closed in cycle 2: long leg 200→205 on quantity 1 (PnL `5`),
short leg 200→200 (PnL `0`). -/
def c4Pos2 : PositionPair :=
  { pairId := 2, symbol := "ETHUSDT", openTime := 100,
    longOrder := mkConf 200 (some 1), shortOrder := mkConf 200 (some 1),
    longName := "A", shortName := "B", quantity := 1, positionSizeUSDT := 400,
    openPrice := 200, status := "closed", closeTime := some 110,
    closeLongOrder := some (mkConf 205 none),
    closeShortOrder := some (mkConf 200 none) }

def c4G0 : GroupData :=
  { id := 1, accountNames := ["A", "B"], pairs := [⟨1, "A", "B"⟩],
    isActive := true, criticalError := false, retryAfter := none, currentCycle := 0 }

def c4G1 : GroupData := { c4G0 with currentCycle := 1 }

def c4Pnl0 : GroupPnL := { totalPnL := 0, trades := [], currentCycle := 0 }

/-! ## Concrete fixtures for the cross-instrument close scenario (claim C5) -/

def c5G : GroupData :=
  { id := 1, accountNames := ["A", "B"], pairs := [⟨1, "A", "B"⟩],
    isActive := true, criticalError := false, retryAfter := none, currentCycle := 1 }

/-- A position at instrument `BTCUSDT` left `"open"` by an earlier cycle
(its own close call failed then). -/
def c5Leftover : PositionPair :=
  { pairId := 1, symbol := "BTCUSDT", openTime := 0,
    longOrder := mkConf 100 (some 1), shortOrder := mkConf 100 (some 1),
    longName := "A", shortName := "B", quantity := 1/2, positionSizeUSDT := 500,
    openPrice := 100, status := "open" }

def c5CloseEnv : PositionPair → CloseEnv :=
  fun _ => { closeLong := .ok (mkConf 101 none), closeShort := .ok (mkConf 101 none) }

/-! ## Concrete fixtures for the all-pairs-margin scenario (claim C2) -/

def c2E : String := "Margin is insufficient"

def c2Envs : HedgePair → ℕ → AttemptEnv :=
  fun _ _ => { price := .error c2E, longOrderResult := .error c2E,
               shortOrderResult := .error c2E }

def c2G : GroupData :=
  { id := 2, accountNames := ["A", "B", "C", "D"],
    pairs := [⟨1, "A", "B"⟩, ⟨2, "C", "D"⟩],
    isActive := true, criticalError := false, retryAfter := none, currentCycle := 0 }

def c2CloseEnv : PositionPair → CloseEnv :=
  fun _ => { closeLong := .error "unused", closeShort := .error "unused" }

/-! ## Concrete fixtures for the critical-error unwind scenario (claim C1) -/

def c1Pair1 : HedgePair := ⟨1, "A", "B"⟩

def c1Pair2 : HedgePair := ⟨2, "C", "D"⟩

def c1G : GroupData :=
  { id := 1, accountNames := ["A", "B", "C", "D"], pairs := [c1Pair1, c1Pair2],
    isActive := true, criticalError := false, retryAfter := none, currentCycle := 0 }

def c1Err : String := "Network timeout"

def c1Conf : OrderConf :=
  { price := some 30000, avgPrice := none, origQty := some (133/1000),
    executedQty := none }

/-- Pair 1 opens cleanly; pair 2 fails every attempt with a non-margin
error. -/
def c1Envs : HedgePair → ℕ → AttemptEnv :=
  fun p _ =>
    if p.pairId = 1 then
      { price := .ok 30000, longOrderResult := .ok c1Conf,
        shortOrderResult := .ok c1Conf }
    else
      { price := .error c1Err, longOrderResult := .error c1Err,
        shortOrderResult := .error c1Err }

def c1Qty : ℚ := calculateQuantity 400 30000 none (some 10) "BTCUSDT"

def c1Pp : PositionPair :=
  { pairId := 1, symbol := "BTCUSDT", openTime := 0,
    longOrder := c1Conf, shortOrder := c1Conf,
    longName := "A", shortName := "B", quantity := c1Qty,
    positionSizeUSDT := 400, openPrice := 30000, status := "open" }

def c1CloseEnv : PositionPair → CloseEnv :=
  fun _ => { closeLong := .ok (mkConf 30100 none),
             closeShort := .ok (mkConf 30100 none) }

def c1Os : List PlacedOrder :=
  [openLongOrder c1Pair1 "BTCUSDT" c1Qty, openShortOrder c1Pair1 "BTCUSDT" c1Qty]

/-! ## Concrete fixtures for a successful pair opening (claim C6) -/

def c6Pair : HedgePair := ⟨1, "A", "B"⟩

def c6G : GroupData :=
  { id := 1, accountNames := ["A", "B"], pairs := [c6Pair],
    isActive := true, criticalError := false, retryAfter := none, currentCycle := 0 }

def c6ConfL : OrderConf :=
  { price := some 30000, avgPrice := none, origQty := some (133/1000), executedQty := none }

def c6ConfS : OrderConf :=
  { price := some 30000, avgPrice := none, origQty := some (133/1000), executedQty := none }

def c6Env : ℕ → AttemptEnv :=
  fun _ => { price := .ok 30000, longOrderResult := .ok c6ConfL,
             shortOrderResult := .ok c6ConfS }

def c6Qty : ℚ := calculateQuantity 400 30000 none (some 10) "BTCUSDT"

def c6Pp : PositionPair :=
  { pairId := 1, symbol := "BTCUSDT", openTime := 0,
    longOrder := c6ConfL, shortOrder := c6ConfS,
    longName := "A", shortName := "B", quantity := c6Qty,
    positionSizeUSDT := 400, openPrice := 30000, status := "open" }

/-! ## Concrete fixtures for the `closeAllPositions` example (claim C8) -/

def c8Account : CliAccount := ⟨"acc1", "key", "secret"⟩

def c8Env : FlattenEnv :=
  { positions := .ok [⟨"BTCUSDT", 1/100⟩, ⟨"ETHUSDT", -1/10000⟩],
    orderResult := fun _ => .ok () }

/-! # Theorems -/

/-- Each `appendOutcome` component is the obvious monoid operation. -/
theorem appendOutcome_fields (a b : FlattenOutcome) :
    (appendOutcome a b).ok = (a.ok && b.ok) ∧
    (appendOutcome a b).closedCount = a.closedCount + b.closedCount ∧
    (appendOutcome a b).errors = a.errors ++ b.errors ∧
    (appendOutcome a b).orders = a.orders ++ b.orders :=
  ⟨rfl, rfl, rfl, rfl⟩

/-- Whatever the order outcome, closing one raw position submits exactly
its `flattenOrder`. -/
theorem processRawPosition_orders (acct : CliAccount) (env : FlattenEnv)
    (p : RawPosition) :
    (processRawPosition acct env p).orders = [flattenOrder acct p] := by
  unfold processRawPosition
  cases env.orderResult p <;> rfl

/-- Orders submitted while folding over a position list. -/
theorem flattenFoldr_orders (acct : CliAccount) (env : FlattenEnv) :
    ∀ l : List RawPosition,
      ((l.map (processRawPosition acct env)).foldr appendOutcome emptyOutcome).orders
        = l.map (flattenOrder acct) := by
  intro l
  induction l with
  | nil => rfl
  | cons p t ih =>
    simp only [List.map_cons, List.foldr_cons, (appendOutcome_fields _ _).2.2.2,
      processRawPosition_orders, ih, List.singleton_append]

/-- `closeAllPositions` on a cons decomposes accountwise: the head
account's outcome is combined with the rest's, so a failure on one account
never affects the processing of later accounts. -/
theorem closeAllPositions_cons (a : CliAccount × FlattenEnv)
    (rest : List (CliAccount × FlattenEnv)) :
    (closeAllPositions (a :: rest)).closedCount =
      (processAccount a.1 a.2).closedCount + (closeAllPositions rest).closedCount ∧
    (closeAllPositions (a :: rest)).errors =
      (processAccount a.1 a.2).errors ++ (closeAllPositions rest).errors ∧
    (closeAllPositions (a :: rest)).orders =
      (processAccount a.1 a.2).orders ++ (closeAllPositions rest).orders := by
  cases rest with
  | nil =>
    refine ⟨?_, ?_, ?_⟩ <;>
      simp [closeAllPositions, appendOutcome, emptyOutcome]
  | cons b t =>
    refine ⟨rfl, rfl, rfl⟩

/-- C8: `closeAllPositions` processes every configured account and
aggregates one result: on a cons the closed count, error list and order
trace decompose accountwise (so one account's failure cannot stop the
next); for an account with a valid key configuration whose `getPositions`
succeeds, the submitted orders are exactly one reduce-only market order
per position above the `0.001` dust threshold, on the side opposite the
position's sign, for the absolute position size; and on the concrete
positions `[{BTCUSDT, 0.01}, {ETHUSDT, -0.0001}]` only the first is
closed. -/
theorem claim_C8_closeAllPositions :
    closeAllPositions [(c8Account, c8Env)] =
      { success := true, closedCount := 1, errors := [],
        orders := [⟨"acc1", "BTCUSDT", "SELL", "MARKET", 1/100, true⟩] } ∧
    (∀ a : CliAccount × FlattenEnv, ∀ rest : List (CliAccount × FlattenEnv),
      (closeAllPositions (a :: rest)).closedCount =
        (processAccount a.1 a.2).closedCount + (closeAllPositions rest).closedCount ∧
      (closeAllPositions (a :: rest)).errors =
        (processAccount a.1 a.2).errors ++ (closeAllPositions rest).errors ∧
      (closeAllPositions (a :: rest)).orders =
        (processAccount a.1 a.2).orders ++ (closeAllPositions rest).orders) ∧
    (∀ (acct : CliAccount) (env : FlattenEnv) (ps : List RawPosition),
      acct.apiKey ≠ acct.secretKey → env.positions = .ok ps →
      (processAccount acct env).orders =
        (ps.filter (fun p => dustThreshold < jsAbs p.positionAmt)).map
          (flattenOrder acct)) := by
  refine ⟨?_, closeAllPositions_cons, ?_⟩
  · have hkey : c8Account.apiKey ≠ c8Account.secretKey := by
      simp [c8Account]
    simp only [closeAllPositions, List.map_cons, List.map_nil, List.foldr_cons,
      List.foldr_nil]
    rw [show processAccount c8Account c8Env =
        { ok := true, closedCount := 1, errors := [],
          orders := [⟨"acc1", "BTCUSDT", "SELL", "MARKET", 1/100, true⟩] } from ?_]
    · rfl
    · unfold processAccount
      rw [if_neg hkey]
      show (((([⟨"BTCUSDT", 1/100⟩, ⟨"ETHUSDT", -1/10000⟩] : List RawPosition).filter
          (fun p => dustThreshold < jsAbs p.positionAmt)).map
            (processRawPosition c8Account c8Env)).foldr appendOutcome emptyOutcome) = _
      rw [show ([⟨"BTCUSDT", 1/100⟩, ⟨"ETHUSDT", -1/10000⟩] : List RawPosition).filter
          (fun p => dustThreshold < jsAbs p.positionAmt) =
          [⟨"BTCUSDT", 1/100⟩] from by norm_num [List.filter, jsAbs, dustThreshold]]
      show appendOutcome (processRawPosition c8Account c8Env ⟨"BTCUSDT", 1/100⟩)
          emptyOutcome = _
      unfold processRawPosition
      show appendOutcome
          { ok := true, closedCount := 1, errors := [],
            orders := [flattenOrder c8Account ⟨"BTCUSDT", 1/100⟩] } emptyOutcome = _
      rw [show flattenOrder c8Account ⟨"BTCUSDT", 1/100⟩ =
          ⟨"acc1", "BTCUSDT", "SELL", "MARKET", 1/100, true⟩ from by
        unfold flattenOrder jsAbs c8Account
        norm_num]
      rfl
  · intro acct env ps hkey hps
    unfold processAccount
    rw [if_neg hkey, hps]
    exact flattenFoldr_orders acct env _

/-- C8 witness: the per-account decomposition and the dust filter applied
at the concrete example account. -/
theorem claim_C8_witness :
    (closeAllPositions [(c8Account, c8Env)]).closedCount =
      (processAccount c8Account c8Env).closedCount +
        (closeAllPositions []).closedCount ∧
    (processAccount c8Account c8Env).orders =
      (([⟨"BTCUSDT", 1/100⟩, ⟨"ETHUSDT", -1/10000⟩] : List RawPosition).filter
        (fun p => dustThreshold < jsAbs p.positionAmt)).map
          (flattenOrder c8Account) := by
  refine ⟨(claim_C8_closeAllPositions.2.1 (c8Account, c8Env) []).1, ?_⟩
  exact claim_C8_closeAllPositions.2.2 c8Account c8Env _ (by simp [c8Account]) rfl

/-- C7: the order quantity is `(positionSize × leverage) / price` rounded to
the symbol-class precision — `3` decimals for a BTC-class instrument, `2`
for ETH-class, `1` for BNB-class, `3` by default — and in particular, for a
BTC-class instrument with size `400`, leverage `10` and price `30000` the
quantity is `round((400 × 10)/30000, 3) = 0.133`. -/
theorem claim_C7_quantity :
    calculateQuantity 400 30000 (some 10) none "BTCUSDT" = 133/1000 ∧
    symbolPrecision "BTCUSDT" = 3 ∧ symbolPrecision "ETHUSDT" = 2 ∧
    symbolPrecision "BNBUSDT" = 1 ∧ symbolPrecision "SOLUSDT" = 3 ∧
    (∀ size price : ℚ, ∀ lev cfgLev : Option ℚ, ∀ symbol : String,
      calculateQuantity size price lev cfgLev symbol =
        roundToDecimals (size * jsNumOr lev (jsNumOr cfgLev 5) / price)
          (symbolPrecision symbol)) := by
  refine ⟨?_, by decide, by decide, by decide, by decide, fun _ _ _ _ _ => rfl⟩
  have h3 : symbolPrecision "BTCUSDT" = 3 := by decide
  simp only [calculateQuantity, jsNumOr, h3]
  norm_num [roundToDecimals, jsRound]

/-- C10: `calculatePositionPnL` is antisymmetric in the side argument, so a
hedge pair whose long and short legs report identical open prices, close
prices and quantities contributes exactly zero PnL. -/
theorem claim_C10_antisymmetry : ∀ o c : OrderConf,
    calculatePositionPnL o c .LONG = -calculatePositionPnL o c .SHORT ∧
    calculatePositionPnL o c .LONG + calculatePositionPnL o c .SHORT = 0 := by
  intro o c
  simp only [calculatePositionPnL]
  constructor <;> ring

/-- C9 counterexample: with the configured `[10000, 30000]` delay range, the
upper endpoint `30000` is *not* attainable — `Math.floor(r*(max-min)+min)`
with `0 ≤ r < 1` never reaches `maxDelay`, refuting the claim that every
integer of `[minDelay, maxDelay]` is attainable. -/
theorem claim_C9_counterexample :
    ¬ ∃ r : ℚ, 0 ≤ r ∧ r < 1 ∧ interLegDelay r 10000 30000 = 30000 := by
  rintro ⟨r, hr0, hr1, hd⟩
  have hx : r * (((30000 : ℤ) : ℚ) - ((10000 : ℤ) : ℚ)) + ((10000 : ℤ) : ℚ) <
      ((30000 : ℤ) : ℚ) := by
    push_cast
    nlinarith
  have hlt : interLegDelay r 10000 30000 < 30000 := by
    unfold interLegDelay
    exact Int.floor_lt.mpr hx
  omega

/-- C9 amended: the inter-leg delay is an integer with
`minDelay ≤ delay ≤ maxDelay - 1`, and every integer of
`[minDelay, maxDelay - 1]` is attainable; `maxDelay` itself is never
produced. -/
theorem claim_C9_amended (minD maxD : ℤ) (hlt : minD < maxD) :
    (∀ r : ℚ, 0 ≤ r → r < 1 →
      minD ≤ interLegDelay r minD maxD ∧ interLegDelay r minD maxD ≤ maxD - 1) ∧
    (∀ k : ℤ, minD ≤ k → k ≤ maxD - 1 →
      ∃ r : ℚ, 0 ≤ r ∧ r < 1 ∧ interLegDelay r minD maxD = k) := by
  have hdpos : (0 : ℚ) < (maxD : ℚ) - (minD : ℚ) := by
    have : (minD : ℚ) < (maxD : ℚ) := by exact_mod_cast hlt
    linarith
  constructor
  · intro r hr0 hr1
    constructor
    · apply Int.le_floor.mpr
      nlinarith
    · have hflt : interLegDelay r minD maxD < maxD := by
        unfold interLegDelay
        apply Int.floor_lt.mpr
        nlinarith
      omega

  · intro k hk0 hk1
    refine ⟨((k : ℚ) - (minD : ℚ)) / ((maxD : ℚ) - (minD : ℚ)), ?_, ?_, ?_⟩
    · apply div_nonneg _ (le_of_lt hdpos)
      have : (minD : ℚ) ≤ (k : ℚ) := by exact_mod_cast hk0
      linarith
    · rw [div_lt_one hdpos]
      have h1 : (k : ℚ) ≤ ((maxD - 1 : ℤ) : ℚ) := by exact_mod_cast hk1
      push_cast at h1
      linarith
    · unfold interLegDelay
      rw [div_mul_cancel₀ _ (ne_of_gt hdpos)]
      rw [show (k : ℚ) - (minD : ℚ) + (minD : ℚ) = ((k : ℤ) : ℚ) by ring]
      exact Int.floor_intCast k

/-- C9 witness: instantiating the amended statement at the configured
default range `[10000, 30000]` and the interior value `12345`. -/
theorem claim_C9_witness :
    ∃ r : ℚ, 0 ≤ r ∧ r < 1 ∧ interLegDelay r 10000 30000 = 12345 :=
  (claim_C9_amended 10000 30000 (by norm_num)).2 12345 (by norm_num) (by norm_num)

/-- C3: while a group is quarantined (`criticalError` with a pending
`retryAfter`), each poll before the deadline just sleeps 30 seconds; the
first poll at or past the deadline resets the group to active — clearing
the critical-error flag and the retry timestamp — and emits exactly one
`groupReactivated` event; polling the reset state again changes nothing
and emits nothing. -/
theorem claim_C3_quarantine_poll (st : GroupData) (t now now2 : ℕ)
    (hce : st.criticalError = true) (hra : st.retryAfter = some t) :
    quarantinePollMs = 30000 ∧
    (now < t → quarantinePoll now st = (st, [], some quarantinePollMs)) ∧
    (t ≤ now →
      quarantinePoll now st =
        ({ st with isActive := true, criticalError := false, retryAfter := none },
         [.groupReactivated], none) ∧
      quarantinePoll now2
          { st with isActive := true, criticalError := false, retryAfter := none } =
        ({ st with isActive := true, criticalError := false, retryAfter := none },
         [], none)) := by
  refine ⟨rfl, ?_, ?_⟩
  · intro hnow
    simp only [quarantinePoll, hra, hce, if_true, if_pos hnow]
  · intro hnow
    constructor
    · simp only [quarantinePoll, hra, hce, if_true, if_neg (not_lt.mpr hnow)]
    · rfl

/-- C3 witness: a concrete quarantined group polled before and after its
deadline. -/
theorem claim_C3_witness :
    (quarantinePoll 500
        { id := 1, accountNames := ["A", "B"], pairs := [],
          isActive := false, criticalError := true, retryAfter := some 1000,
          currentCycle := 0 }).2.2 = some 30000 ∧
    (quarantinePoll 1000
        { id := 1, accountNames := ["A", "B"], pairs := [],
          isActive := false, criticalError := true, retryAfter := some 1000,
          currentCycle := 0 }).2.1 = [.groupReactivated] := by
  have h := claim_C3_quarantine_poll
    { id := 1, accountNames := ["A", "B"], pairs := [],
      isActive := false, criticalError := true, retryAfter := some 1000,
      currentCycle := 0 } 1000 1000 2000 rfl rfl
  refine ⟨?_, ?_⟩
  · have h5 := claim_C3_quarantine_poll
      { id := 1, accountNames := ["A", "B"], pairs := [],
        isActive := false, criticalError := true, retryAfter := some 1000,
        currentCycle := 0 } 1000 500 2000 rfl rfl
    rw [h5.2.1 (by norm_num)]
    rfl
  · rw [(h.2.2 (le_refl 1000)).1]

/-- C4 (code bug): `updateGroupPnL` filters `status === 'closed'` over the
whole cumulative `groupPositions` ledger, which is never pruned, so a
cycle's appended PnL record re-counts positions closed in earlier cycles.
Concretely: `c4Pos1` (pair PnL `10`) is closed during cycle 1 and recorded
by the cycle-1 update; during cycle 2 only `c4Pos2` (pair PnL `5`) reaches
`"closed"`, yet the cycle-2 update appends `{pnl := 15, positions := 2}`
and advances the running total to `25` — the claim (and the code's own
"P&L for this cycle" comment) requires `{pnl := 5, positions := 1}` and
total `15`. -/
theorem claim_C4_pnl_double_count :
    pairClosedPnL c4Pos1 = 10 ∧
    pairClosedPnL c4Pos2 = 5 ∧
    (updateGroupPnL c4G0 [c4Pos1] c4Pnl0 1000).1.trades =
      [{ cycle := 1, timestamp := 1000, pnl := 10, positions := 1 }] ∧
    (updateGroupPnL c4G1 [c4Pos1, c4Pos2]
        (updateGroupPnL c4G0 [c4Pos1] c4Pnl0 1000).1 2000).1.trades =
      [{ cycle := 1, timestamp := 1000, pnl := 10, positions := 1 },
       { cycle := 2, timestamp := 2000, pnl := 15, positions := 2 }] ∧
    (updateGroupPnL c4G1 [c4Pos1, c4Pos2]
        (updateGroupPnL c4G0 [c4Pos1] c4Pnl0 1000).1 2000).1.totalPnL = 25 ∧
    (15 : ℚ) ≠ 5 ∧ (2 : ℕ) ≠ 1 ∧ (25 : ℚ) ≠ 15 := by
  have hp1 : pairClosedPnL c4Pos1 = 10 := by
    norm_num [pairClosedPnL, c4Pos1, mkConf, calculatePositionPnL, jsNumOr]
  have hp2 : pairClosedPnL c4Pos2 = 5 := by
    norm_num [pairClosedPnL, c4Pos2, mkConf, calculatePositionPnL, jsNumOr]
  have hst1 : ([c4Pos1].filter (fun p => p.status == "closed")) = [c4Pos1] := by
    simp [c4Pos1]
  have hst2 : ([c4Pos1, c4Pos2].filter (fun p => p.status == "closed")) =
      [c4Pos1, c4Pos2] := by
    simp [c4Pos1, c4Pos2]
  refine ⟨hp1, hp2, ?_, ?_, ?_, by norm_num, by norm_num, by norm_num⟩
  · simp only [updateGroupPnL, hst1, List.map_cons, List.map_nil, List.sum_cons,
      List.sum_nil, hp1, c4Pnl0, c4G0, List.length_cons, List.length_nil]
    norm_num
  · simp only [updateGroupPnL, hst1, hst2, List.map_cons, List.map_nil,
      List.sum_cons, List.sum_nil, hp1, hp2, c4Pnl0, c4G0, c4G1,
      List.length_cons, List.length_nil, List.nil_append, List.cons_append]
    norm_num
  · simp only [updateGroupPnL, hst1, hst2, List.map_cons, List.map_nil,
      List.sum_cons, List.sum_nil, hp1, hp2, c4Pnl0, c4G0, c4G1]
    norm_num

/-- C5 counterexample: with the ledger holding `c5Leftover` — a still-open
position at instrument `BTCUSDT` from an earlier cycle — a close phase run
at cycle instrument `ETHUSDT` closes that position anyway, and submits both
its close orders at `ETHUSDT`, not at the position's own symbol: the claim
that the close set is restricted to that cycle's instrument, and that each
close order uses the position's own symbol, fails. -/
theorem claim_C5_counterexample :
    (closeGroupPositions c5G [c5Leftover] "ETHUSDT" c5CloseEnv 2000).orders.map
        (fun o => o.symbol) = ["ETHUSDT", "ETHUSDT"] ∧
    (closeGroupPositions c5G [c5Leftover] "ETHUSDT" c5CloseEnv 2000).ledger.map
        (fun p => p.status) = ["closed"] ∧
    c5Leftover.symbol = "BTCUSDT" ∧ ("ETHUSDT" : String) ≠ "BTCUSDT" := by
  refine ⟨?_, ?_, rfl, by decide⟩ <;> rfl

/-- The closed-position record produced for `p` when both close legs
confirm with `clo`/`cso` at time `now`. -/
def closedRecord (p : PositionPair) (clo cso : OrderConf) (now : ℕ) : PositionPair :=
  { p with closeTime := some now, closeLongOrder := some clo,
           closeShortOrder := some cso, status := "closed" }

/-- `closeGroupOne` on an open position whose clients resolve and whose
close legs both succeed: the record is closed, `positionClosed` is emitted,
and reduce-only SELL/BUY orders go out at the **cycle** symbol. -/
theorem closeGroupOne_closed_eq (g : GroupData) (symbol : String)
    (env : PositionPair → CloseEnv) (now : ℕ) (p : PositionPair)
    (clo cso : OrderConf)
    (hopen : p.status = "open")
    (hcl : hasClient g p.longName = true) (hcs : hasClient g p.shortName = true)
    (hlo : (env p).closeLong = .ok clo) (hso : (env p).closeShort = .ok cso) :
    closeGroupOne g symbol env now p =
      (closedRecord p clo cso now,
       [.positionClosed (closedRecord p clo cso now)],
       [⟨p.longName, symbol, "SELL", "MARKET", p.quantity, true⟩,
        ⟨p.shortName, symbol, "BUY", "MARKET", p.quantity, true⟩]) := by
  simp only [closeGroupOne, hopen, hcl, hcs, hlo, hso, beq_self_eq_true, if_true,
    closedRecord]

/-- `closeGroupOne` leaves a non-open position untouched. -/
theorem closeGroupOne_skip (g : GroupData) (symbol : String)
    (env : PositionPair → CloseEnv) (now : ℕ) (p : PositionPair)
    (hnot : (p.status == "open") = false) :
    closeGroupOne g symbol env now p = (p, [], []) := by
  simp only [closeGroupOne, hnot, Bool.false_eq_true, if_false]

/-- `closeGroupPositions` unfolds position by position. -/
theorem closeGroupPositions_cons (g : GroupData) (symbol : String)
    (env : PositionPair → CloseEnv) (now : ℕ) (p : PositionPair)
    (t : List PositionPair) :
    closeGroupPositions g (p :: t) symbol env now =
      ⟨(closeGroupOne g symbol env now p).1 ::
         (closeGroupPositions g t symbol env now).ledger,
       (closeGroupOne g symbol env now p).2.1 ++
         (closeGroupPositions g t symbol env now).events,
       (closeGroupOne g symbol env now p).2.2 ++
         (closeGroupPositions g t symbol env now).orders⟩ := rfl

/-- C5 amended: after the hold wait, the close phase closes **every**
still-Open PositionPair in the group's ledger, whatever instrument it was
opened at (these coincide with that cycle's pairs only when no older open
position is left over); each close order is submitted at the **cycle's**
instrument — not the position's own symbol — as a reduce-only market order
on the opposite side of its leg (SELL on the long leg, BUY on the short
leg) for the position's quantity; non-open positions are untouched. -/
theorem claim_C5_amended (g : GroupData) (ledger : List PositionPair)
    (symbol : String) (env : PositionPair → CloseEnv) (now : ℕ)
    (cloOf csoOf : PositionPair → OrderConf)
    (hclients : ∀ p ∈ ledger, hasClient g p.longName = true ∧ hasClient g p.shortName = true)
    (hok : ∀ p ∈ ledger, (env p).closeLong = .ok (cloOf p) ∧
      (env p).closeShort = .ok (csoOf p)) :
    (closeGroupPositions g ledger symbol env now).ledger =
      ledger.map (fun p =>
        if p.status == "open" then closedRecord p (cloOf p) (csoOf p) now else p) ∧
    (closeGroupPositions g ledger symbol env now).orders =
      (ledger.filter (fun p => p.status == "open")).flatMap (fun p =>
        [⟨p.longName, symbol, "SELL", "MARKET", p.quantity, true⟩,
         ⟨p.shortName, symbol, "BUY", "MARKET", p.quantity, true⟩]) ∧
    (closeGroupPositions g ledger symbol env now).events =
      (ledger.filter (fun p => p.status == "open")).map (fun p =>
        Event.positionClosed (closedRecord p (cloOf p) (csoOf p) now)) := by
  induction ledger with
  | nil => exact ⟨rfl, rfl, rfl⟩
  | cons p t ih =>
    have hp := hok p (List.mem_cons_self p t)
    have hc := hclients p (List.mem_cons_self p t)
    obtain ⟨ih1, ih2, ih3⟩ := ih (fun q hq => hclients q (List.mem_cons_of_mem p hq))
      (fun q hq => hok q (List.mem_cons_of_mem p hq))
    rcases hst : (p.status == "open") with hfalse | htrue
    · have h1 := closeGroupOne_skip g symbol env now p hst
      refine ⟨?_, ?_, ?_⟩
      · simp only [closeGroupPositions_cons, h1, List.map_cons, hst,
          Bool.false_eq_true, if_false, ih1]
      · simp only [closeGroupPositions_cons, h1, List.filter_cons, hst,
          Bool.false_eq_true, if_false, List.nil_append, ih2]
      · simp only [closeGroupPositions_cons, h1, List.filter_cons, hst,
          Bool.false_eq_true, if_false, List.nil_append, ih3]
    · have hopen : p.status = "open" := by
        have h := hst
        simp only [beq_iff_eq] at h
        exact h
      have h1 := closeGroupOne_closed_eq g symbol env now p (cloOf p) (csoOf p)
        hopen hc.1 hc.2 hp.1 hp.2
      refine ⟨?_, ?_, ?_⟩
      · simp only [closeGroupPositions_cons, h1, List.map_cons, hst, if_true, ih1]
      · simp only [closeGroupPositions_cons, h1, List.filter_cons, hst, if_true,
          List.flatMap_cons, List.cons_append, List.nil_append, ih2]
      · simp only [closeGroupPositions_cons, h1, List.filter_cons, hst, if_true,
          List.map_cons, List.cons_append, List.nil_append, ih3]

/-- C5 witness: the amended close-phase description applied to the concrete
leftover-position ledger. -/
theorem claim_C5_witness :
    (closeGroupPositions c5G [c5Leftover] "ETHUSDT" c5CloseEnv 2000).orders =
      [⟨"A", "ETHUSDT", "SELL", "MARKET", c5Leftover.quantity, true⟩,
       ⟨"B", "ETHUSDT", "BUY", "MARKET", c5Leftover.quantity, true⟩] := by
  have h := claim_C5_amended c5G [c5Leftover] "ETHUSDT" c5CloseEnv 2000
    (fun _ => mkConf 101 none) (fun _ => mkConf 101 none)
    (by intro p hp; simp only [List.mem_singleton] at hp; subst hp
        exact ⟨by decide, by decide⟩)
    (by intro p hp; simp only [List.mem_singleton] at hp; subst hp
        exact ⟨rfl, rfl⟩)
  rw [h.2.1]
  rfl

/-- A successful `openPairAttempt` yields the position record of line 420:
it is `"open"`, carries the group's sampled size, the per-attempt computed
quantity, and the attempt's submitted orders are exactly the long BUY and
the short SELL for that same quantity. -/
theorem openPairAttempt_ok (g : GroupData) (pair : HedgePair) (symbol : String)
    (size : ℚ) (tcLev : Option ℚ) (now : ℕ) (env : AttemptEnv)
    (pp : PositionPair) (os : List PlacedOrder)
    (h : openPairAttempt g pair symbol size tcLev now env = (.ok pp, os)) :
    pp.status = "open" ∧ pp.positionSizeUSDT = size ∧ pp.pairId = pair.pairId ∧
    pp.symbol = symbol ∧ pp.longName = pair.longName ∧ pp.shortName = pair.shortName ∧
    os = [openLongOrder pair symbol pp.quantity, openShortOrder pair symbol pp.quantity] := by
  unfold openPairAttempt at h
  rcases hhc : (hasClient g pair.longName && hasClient g pair.shortName) with hF | hT
  · simp only [hhc, Bool.false_eq_true, if_false, Prod.mk.injEq] at h
    exact absurd h.1 (by simp)
  · simp only [hhc, if_true] at h
    rcases hp : env.price with e | price
    · simp only [hp, Prod.mk.injEq] at h
      exact absurd h.1 (by simp)
    · simp only [hp] at h
      rcases hl : env.longOrderResult with e | lo
      · simp only [hl, Prod.mk.injEq] at h
        exact absurd h.1 (by simp)
      · simp only [hl] at h
        rcases hs : env.shortOrderResult with e | so
        · simp only [hs, Prod.mk.injEq] at h
          exact absurd h.1 (by simp)
        · simp only [hs, Prod.mk.injEq, Except.ok.injEq] at h
          obtain ⟨h1, h2⟩ := h
          subst h1
          subst h2
          exact ⟨rfl, rfl, rfl, rfl, rfl, rfl, rfl⟩

/-- A `success` outcome of the retry loop comes from a successful attempt,
whose orders form the tail of the accumulated order trace. -/
theorem openPairRetryGo_success
    (A : ℕ → Except String PositionPair × List PlacedOrder) :
    ∀ (fuel attempt : ℕ) (pp : PositionPair) (os : List PlacedOrder),
      openPairRetryGo A attempt fuel = (.success pp, os) →
      ∃ (a : ℕ) (osPre : List PlacedOrder),
        (A a).1 = .ok pp ∧ os = osPre ++ (A a).2 := by
  intro fuel
  induction fuel with
  | zero =>
    intro attempt pp os h
    simp only [openPairRetryGo] at h
    rcases hA : (A attempt).1 with e | pq
    · simp only [hA] at h
      rcases hm : isInsufficientMarginError e with hF | hT
      · simp only [hm, Bool.false_eq_true, if_false, Prod.mk.injEq] at h
        exact absurd h.1 (by simp)
      · simp only [hm, if_true, Prod.mk.injEq] at h
        exact absurd h.1 (by simp)
    · simp only [hA, Prod.mk.injEq, PairResult.success.injEq] at h
      refine ⟨attempt, [], ?_, ?_⟩
      · rw [hA, h.1]
      · rw [← h.2, List.nil_append]
  | succ n ih =>
    intro attempt pp os h
    simp only [openPairRetryGo] at h
    rcases hA : (A attempt).1 with e | pq
    · simp only [hA] at h
      rcases hm : isInsufficientMarginError e with hF | hT
      · simp only [hm, Bool.false_eq_true, if_false, Prod.mk.injEq] at h
        obtain ⟨h1, h2⟩ := h
        obtain ⟨a, osPre, hA2, hos⟩ := ih (attempt + 1) pp
          (openPairRetryGo A (attempt + 1) n).2 (by rw [← h1])
        exact ⟨a, (A attempt).2 ++ osPre, hA2,
          by rw [← h2, hos, List.append_assoc]⟩
      · simp only [hm, if_true, Prod.mk.injEq] at h
        exact absurd h.1 (by simp)
    · simp only [hA, Prod.mk.injEq, PairResult.success.injEq] at h
      refine ⟨attempt, [], ?_, ?_⟩
      · rw [hA, h.1]
      · rw [← h.2, List.nil_append]

/-- A successful `openPairPositionWithRetry`: the returned `PositionPair`
is open, carries the sampled size and the pair's identity, and the last
two submitted orders are the long BUY and short SELL legs, both for the
recorded quantity. -/
theorem openPairRetry_success (g : GroupData) (pair : HedgePair)
    (symbol : String) (size : ℚ) (tcLev : Option ℚ) (now : ℕ)
    (envs : ℕ → AttemptEnv) (pp : PositionPair) (os : List PlacedOrder)
    (h : openPairPositionWithRetry g pair symbol size tcLev now envs =
      (.success pp, os)) :
    pp.status = "open" ∧ pp.positionSizeUSDT = size ∧ pp.pairId = pair.pairId ∧
    pp.symbol = symbol ∧ pp.longName = pair.longName ∧ pp.shortName = pair.shortName ∧
    ∃ osPre, os = osPre ++ [openLongOrder pair symbol pp.quantity,
                            openShortOrder pair symbol pp.quantity] := by
  unfold openPairPositionWithRetry at h
  obtain ⟨a, osPre, hA, hos⟩ := openPairRetryGo_success _ _ _ _ _ h
  have hA1 : (openPairAttempt g pair symbol size tcLev now (envs a)).1 = .ok pp := hA
  have hA2 : (openPairAttempt g pair symbol size tcLev now (envs a)).2 =
      (openPairAttempt g pair symbol size tcLev now (envs a)).2 := rfl
  have hfull : openPairAttempt g pair symbol size tcLev now (envs a) =
      (.ok pp, (openPairAttempt g pair symbol size tcLev now (envs a)).2) := by
    rw [← hA1]
  obtain ⟨h1, h2, h3, h4, h5, h6, h7⟩ := openPairAttempt_ok _ _ _ _ _ _ _ _ _ hfull
  refine ⟨h1, h2, h3, h4, h5, h6, osPre, ?_⟩
  rw [hos, h7]

/-- The emergency close path never alters a position's sampled size or
quantity (only its status). -/
theorem closePartialOne_preserves (g : GroupData) (env : PositionPair → CloseEnv)
    (p : PositionPair) :
    ((closePartialOne g env p).1).positionSizeUSDT = p.positionSizeUSDT ∧
    ((closePartialOne g env p).1).quantity = p.quantity := by
  unfold closePartialOne
  repeat' split
  all_goals exact ⟨rfl, rfl⟩

/-- Emergency close of one pair when both clients resolve and both close
legs succeed: reduce-only SELL then BUY at the position's **own** symbol,
and the status becomes `"emergency_closed"`. -/
theorem closePartialOne_ok (g : GroupData) (env : PositionPair → CloseEnv)
    (p : PositionPair)
    (hcl : hasClient g p.longName = true) (hcs : hasClient g p.shortName = true)
    (hok : closeBothOk (env p) = true) :
    closePartialOne g env p =
      ({ p with status := "emergency_closed" },
       [⟨p.longName, p.symbol, "SELL", "MARKET", p.quantity, true⟩,
        ⟨p.shortName, p.symbol, "BUY", "MARKET", p.quantity, true⟩]) := by
  unfold closeBothOk exceptOk at hok
  rcases hL : (env p).closeLong with e | clo
  · rw [hL] at hok
    simp at hok
  · rcases hS : (env p).closeShort with e | cso
    · rw [hL, hS] at hok
      simp at hok
    · simp only [closePartialOne, hcl, hcs, Bool.and_self, if_true, hL, hS]

/-- When a leg of the emergency close fails, the position record is left
unchanged (it stays `"open"` if it was open). -/
theorem closePartialOne_fail (g : GroupData) (env : PositionPair → CloseEnv)
    (p : PositionPair) (hfail : closeBothOk (env p) = false) :
    (closePartialOne g env p).1 = p := by
  unfold closeBothOk exceptOk at hfail
  unfold closePartialOne
  rcases hhc : (hasClient g p.longName && hasClient g p.shortName) with hF | hT
  · simp only [hhc, Bool.false_eq_true, if_false]
  · simp only [hhc, if_true]
    rcases hL : (env p).closeLong with e | clo
    · simp only [hL]
    · rcases hS : (env p).closeShort with e | cso
      · simp only [hL, hS]
      · rw [hL, hS] at hfail
        simp at hfail

/-- Every position accumulated by the pair loop carries the one sampled
`positionSizeUSDT` of the cycle (the emergency unwind only changes
statuses). -/
theorem openGroupLoop_size_invariant (g0 : GroupData) (totalPairs : ℕ)
    (symbol : String) (size : ℚ) (tcLev : Option ℚ) (now : ℕ)
    (pairEnvs : HedgePair → ℕ → AttemptEnv)
    (closeEnv : PositionPair → CloseEnv) :
    ∀ (pairs : List HedgePair) (acc : OpenAcc),
      (∀ pp ∈ acc.newPositions, pp.positionSizeUSDT = size) →
      ∀ pp ∈ (openGroupLoop g0 totalPairs symbol size tcLev now pairEnvs closeEnv
          pairs acc).newPositions,
        pp.positionSizeUSDT = size := by
  intro pairs
  induction pairs with
  | nil => intro acc hacc; exact hacc
  | cons pair rest ih =>
    intro acc hacc pp hpp
    simp only [openGroupLoop] at hpp
    rcases hr : (openPairPositionWithRetry g0 pair symbol size tcLev now
        (pairEnvs pair)).1 with pq | e | e
    · simp only [hr] at hpp
      refine ih _ ?_ pp hpp
      intro q hq
      rcases List.mem_append.mp hq with hq1 | hq1
      · exact hacc q hq1
      · have hfull : openPairPositionWithRetry g0 pair symbol size tcLev now
            (pairEnvs pair) =
            (.success pq, (openPairPositionWithRetry g0 pair symbol size tcLev now
              (pairEnvs pair)).2) := by
          rw [← hr]
        rw [List.mem_singleton.mp hq1]
        exact (openPairRetry_success _ _ _ _ _ _ _ _ _ hfull).2.1
    · simp only [hr] at hpp
      by_cases hcnt : acc.insufficientCount + 1 = totalPairs
      · rw [if_pos hcnt] at hpp
        exact hacc pp hpp
      · rw [if_neg hcnt] at hpp
        refine ih _ ?_ pp hpp
        intro q hq
        exact hacc q hq
    · simp only [hr] at hpp
      by_cases hemp : (acc.newPositions.isEmpty : Bool) = true
      · rw [if_pos hemp] at hpp
        exact hacc pp hpp
      · rw [if_neg hemp] at hpp
        simp only [closePartialGroupPositions, List.mem_map] at hpp
        obtain ⟨q, hq, hqeq⟩ := hpp
        rw [← hqeq]
        rw [(closePartialOne_preserves _ _ _).1]
        exact hacc q hq

/-- A margin-classified error aborts the retry loop at once, whatever fuel
remains (lines 442–449). -/
theorem openPairRetryGo_margin
    (A : ℕ → Except String PositionPair × List PlacedOrder)
    (attempt fuel : ℕ) (e : String) (os : List PlacedOrder)
    (hA : A attempt = (.error e, os)) (hm : isInsufficientMarginError e = true) :
    openPairRetryGo A attempt fuel = (.insufficientMargin e, os) := by
  cases fuel with
  | zero => simp only [openPairRetryGo, hA, hm, if_true]
  | succ n => simp only [openPairRetryGo, hA, hm, if_true]

/-- With no fuel left, a non-margin error is reported as critical
(line 452). -/
theorem openPairRetryGo_error_last
    (A : ℕ → Except String PositionPair × List PlacedOrder)
    (attempt : ℕ) (e : String) (os : List PlacedOrder)
    (hA : A attempt = (.error e, os)) (hm : isInsufficientMarginError e = false) :
    openPairRetryGo A attempt 0 = (.critical e, os) := by
  simp only [openPairRetryGo, hA, hm, Bool.false_eq_true, if_false]

/-- With fuel left, a non-margin error retries the next attempt after the
backoff (lines 460–463). -/
theorem openPairRetryGo_error_step
    (A : ℕ → Except String PositionPair × List PlacedOrder)
    (attempt n : ℕ) (e : String) (os : List PlacedOrder)
    (hA : A attempt = (.error e, os)) (hm : isInsufficientMarginError e = false) :
    openPairRetryGo A attempt (n + 1) =
      ((openPairRetryGo A (attempt + 1) n).1,
       os ++ (openPairRetryGo A (attempt + 1) n).2) := by
  simp only [openPairRetryGo, hA, hm, Bool.false_eq_true, if_false]

/-- If the very first attempt throws a margin-classified error,
`openPairPositionWithRetry` reports `insufficientMargin` with no further
attempts. -/
theorem openPairRetry_margin (g : GroupData) (pair : HedgePair)
    (symbol : String) (size : ℚ) (tcLev : Option ℚ) (now : ℕ)
    (envs : ℕ → AttemptEnv) (e : String) (os1 : List PlacedOrder)
    (h1 : openPairAttempt g pair symbol size tcLev now (envs 1) = (.error e, os1))
    (hm : isInsufficientMarginError e = true) :
    openPairPositionWithRetry g pair symbol size tcLev now envs =
      (.insufficientMargin e, os1) :=
  openPairRetryGo_margin _ 1 (maxRetries - 1) e os1 h1 hm

/-- If all three attempts throw non-margin errors, the retry loop reports
`critical` with the last error, the trace holding all three attempts'
orders. -/
theorem openPairRetry_critical (g : GroupData) (pair : HedgePair)
    (symbol : String) (size : ℚ) (tcLev : Option ℚ) (now : ℕ)
    (envs : ℕ → AttemptEnv) (e1 e2 e3 : String)
    (os1 os2 os3 : List PlacedOrder)
    (h1 : openPairAttempt g pair symbol size tcLev now (envs 1) = (.error e1, os1))
    (hm1 : isInsufficientMarginError e1 = false)
    (h2 : openPairAttempt g pair symbol size tcLev now (envs 2) = (.error e2, os2))
    (hm2 : isInsufficientMarginError e2 = false)
    (h3 : openPairAttempt g pair symbol size tcLev now (envs 3) = (.error e3, os3))
    (hm3 : isInsufficientMarginError e3 = false) :
    openPairPositionWithRetry g pair symbol size tcLev now envs =
      (.critical e3, os1 ++ (os2 ++ os3)) := by
  unfold openPairPositionWithRetry
  have e3h := openPairRetryGo_error_last
    (fun a => openPairAttempt g pair symbol size tcLev now (envs a)) 3 e3 os3 h3 hm3
  have e2h : openPairRetryGo
      (fun a => openPairAttempt g pair symbol size tcLev now (envs a)) 2 1 =
      ((openPairRetryGo
          (fun a => openPairAttempt g pair symbol size tcLev now (envs a)) 3 0).1,
       os2 ++ (openPairRetryGo
          (fun a => openPairAttempt g pair symbol size tcLev now (envs a)) 3 0).2) :=
    openPairRetryGo_error_step _ 2 0 e2 os2 h2 hm2
  have e1h : openPairRetryGo
      (fun a => openPairAttempt g pair symbol size tcLev now (envs a)) 1 2 =
      ((openPairRetryGo
          (fun a => openPairAttempt g pair symbol size tcLev now (envs a)) 2 1).1,
       os1 ++ (openPairRetryGo
          (fun a => openPairAttempt g pair symbol size tcLev now (envs a)) 2 1).2) :=
    openPairRetryGo_error_step _ 1 1 e1 os1 h1 hm1
  show openPairRetryGo
      (fun a => openPairAttempt g pair symbol size tcLev now (envs a)) 1 2 =
    (.critical e3, os1 ++ (os2 ++ os3))
  rw [e1h, e2h, e3h]

/-- The pair loop when every remaining pair reports a margin outcome and
the accumulated margin count plus the remaining pairs completes the full
pair count: each pair emits its `insufficientMargin` event, and at the last
pair the count reaches `totalPairs`, the group is deactivated, and exactly
one `groupDeactivated` notice is appended. -/
theorem openGroupLoop_all_margin (g0 : GroupData) (totalPairs : ℕ)
    (symbol : String) (size : ℚ) (tcLev : Option ℚ) (now : ℕ)
    (pairEnvs : HedgePair → ℕ → AttemptEnv) (closeEnv : PositionPair → CloseEnv)
    (eOf : HedgePair → String) (osOf : HedgePair → List PlacedOrder) :
    ∀ (pairs : List HedgePair) (acc : OpenAcc),
      pairs ≠ [] →
      (∀ p ∈ pairs, openPairPositionWithRetry g0 p symbol size tcLev now
        (pairEnvs p) = (.insufficientMargin (eOf p), osOf p)) →
      acc.insufficientCount + pairs.length = totalPairs →
      openGroupLoop g0 totalPairs symbol size tcLev now pairEnvs closeEnv pairs acc =
        { g := { acc.g with isActive := false },
          newPositions := acc.newPositions,
          events := (acc.events ++
            pairs.map (fun p => Event.insufficientMarginEvt p.pairId)) ++
            [Event.groupDeactivated "all_pairs_insufficient_margin"],
          orders := acc.orders ++ pairs.flatMap osOf,
          insufficientCount := totalPairs,
          criticalOccurred := acc.criticalOccurred } := by
  intro pairs
  induction pairs with
  | nil => intro acc hne; exact absurd rfl hne
  | cons pair rest ih =>
    intro acc hne hall hcount
    have hp := hall pair (List.mem_cons_self pair rest)
    simp only [openGroupLoop, hp]
    cases rest with
    | nil =>
      have hc : acc.insufficientCount + 1 = totalPairs := by
        simpa using hcount
      rw [if_pos hc]
      simp only [OpenAcc.mk.injEq, List.map_cons, List.map_nil,
        List.flatMap_cons, List.flatMap_nil, List.append_nil, hc]
    | cons q t =>
      have hc : acc.insufficientCount + 1 ≠ totalPairs := by
        simp only [List.length_cons] at hcount
        omega
      rw [if_neg hc]
      rw [ih { acc with insufficientCount := acc.insufficientCount + 1,
                        events := acc.events ++ [.insufficientMarginEvt pair.pairId],
                        orders := acc.orders ++ osOf pair }
        (by simp)
        (fun p hp2 => hall p (List.mem_cons_of_mem pair hp2))
        (by simp only [List.length_cons] at hcount ⊢; omega)]
      simp only [OpenAcc.mk.injEq, List.map_cons, List.flatMap_cons,
        List.append_assoc, List.cons_append, List.nil_append,
        List.singleton_append]

/-- C2: when, within one open attempt, every pair of the (nonempty) group
throws a margin-classified error, the group is suspended — `isActive` is
cleared while the critical-error flag and retry timestamp are untouched —
and exactly one `groupDeactivated` event with reason
`"all_pairs_insufficient_margin"` is emitted; no positions are opened and
the ledger is unchanged. -/
theorem claim_C2_all_margin (g : GroupData) (ledger : List PositionPair)
    (symbol : String) (size : ℚ) (tcLev : Option ℚ) (now : ℕ)
    (pairEnvs : HedgePair → ℕ → AttemptEnv) (closeEnv : PositionPair → CloseEnv)
    (eOf : HedgePair → String) (osOf : HedgePair → List PlacedOrder)
    (hne : g.pairs ≠ [])
    (hall : ∀ p ∈ g.pairs,
      openPairAttempt g p symbol size tcLev now (pairEnvs p 1) =
        (.error (eOf p), osOf p) ∧
      isInsufficientMarginError (eOf p) = true) :
    (openGroupPositions g ledger symbol size tcLev now pairEnvs closeEnv).state.isActive
      = false ∧
    (openGroupPositions g ledger symbol size tcLev now pairEnvs closeEnv).state.criticalError
      = g.criticalError ∧
    (openGroupPositions g ledger symbol size tcLev now pairEnvs closeEnv).state.retryAfter
      = g.retryAfter ∧
    (openGroupPositions g ledger symbol size tcLev now pairEnvs closeEnv).events =
      g.pairs.map (fun p => Event.insufficientMarginEvt p.pairId) ++
        [Event.groupDeactivated "all_pairs_insufficient_margin"] ∧
    (openGroupPositions g ledger symbol size tcLev now pairEnvs closeEnv).events.count
      (Event.groupDeactivated "all_pairs_insufficient_margin") = 1 ∧
    (openGroupPositions g ledger symbol size tcLev now pairEnvs closeEnv).openedCount
      = 0 ∧
    (openGroupPositions g ledger symbol size tcLev now pairEnvs closeEnv).ledger
      = ledger ∧
    (openGroupPositions g ledger symbol size tcLev now pairEnvs closeEnv).newPositions
      = [] := by
  have hretry : ∀ p ∈ g.pairs,
      openPairPositionWithRetry g p symbol size tcLev now (pairEnvs p) =
        (.insufficientMargin (eOf p), osOf p) := by
    intro p hp
    exact openPairRetry_margin g p symbol size tcLev now (pairEnvs p) (eOf p)
      (osOf p) (hall p hp).1 (hall p hp).2
  have hloop := openGroupLoop_all_margin g g.pairs.length symbol size tcLev now
    pairEnvs closeEnv eOf osOf g.pairs
    { g := g, newPositions := [], events := [], orders := [],
      insufficientCount := 0, criticalOccurred := false }
    hne hretry (by simp)
  have hev : (openGroupPositions g ledger symbol size tcLev now pairEnvs closeEnv).events
      = g.pairs.map (fun p => Event.insufficientMarginEvt p.pairId) ++
        [Event.groupDeactivated "all_pairs_insufficient_margin"] := by
    simp only [openGroupPositions, hloop, List.nil_append, List.append_assoc]
  refine ⟨?_, ?_, ?_, hev, ?_, ?_, ?_, ?_⟩
  · simp only [openGroupPositions, hloop]
  · simp only [openGroupPositions, hloop]
  · simp only [openGroupPositions, hloop]
  · rw [hev, List.count_append]
    have h0 : (g.pairs.map (fun p => Event.insufficientMarginEvt p.pairId)).count
        (Event.groupDeactivated "all_pairs_insufficient_margin") = 0 := by
      rw [List.count_eq_zero]
      simp
    rw [h0]
    rfl
  · simp only [openGroupPositions, hloop]
    rfl
  · simp only [openGroupPositions, hloop, Bool.false_eq_true, if_false,
      List.append_nil]
  · simp only [openGroupPositions, hloop]

/-- C2 witness: a concrete two-pair group where both pairs throw
`"Margin is insufficient"` on their first attempt. -/
theorem claim_C2_witness :
    (openGroupPositions c2G [] "BTCUSDT" 400 (some 10) 0 c2Envs
      c2CloseEnv).state.isActive = false ∧
    (openGroupPositions c2G [] "BTCUSDT" 400 (some 10) 0 c2Envs
      c2CloseEnv).events.count
        (Event.groupDeactivated "all_pairs_insufficient_margin") = 1 := by
  have h := claim_C2_all_margin c2G [] "BTCUSDT" 400 (some 10) 0 c2Envs
    c2CloseEnv (fun _ => c2E) (fun _ => []) (by simp [c2G])
    (by
      intro p hp
      fin_cases hp <;> exact ⟨rfl, by decide⟩)
  exact ⟨h.1, h.2.2.2.2.1⟩

/-- C6: (i) a successfully opened pair's long and short open legs are the
last two submitted orders and both use the pair's recorded quantity;
(ii) the close phase submits exactly a SELL on the long leg and a BUY on
the short leg, both for the pair's recorded quantity; (iii) within one
cycle every position pair the loop produces carries the one sampled
position size of the group. -/
theorem claim_C6_quantities :
    (∀ (g : GroupData) (pair : HedgePair) (symbol : String) (size : ℚ)
       (tcLev : Option ℚ) (now : ℕ) (envs : ℕ → AttemptEnv)
       (pp : PositionPair) (os : List PlacedOrder),
      openPairPositionWithRetry g pair symbol size tcLev now envs =
        (.success pp, os) →
      ∃ osPre, os = osPre ++ [openLongOrder pair symbol pp.quantity,
                              openShortOrder pair symbol pp.quantity]) ∧
    (∀ (g : GroupData) (symbol : String) (env : PositionPair → CloseEnv)
       (now : ℕ) (p : PositionPair) (clo cso : OrderConf),
      p.status = "open" → hasClient g p.longName = true →
      hasClient g p.shortName = true →
      (env p).closeLong = .ok clo → (env p).closeShort = .ok cso →
      (closeGroupOne g symbol env now p).2.2 =
        [⟨p.longName, symbol, "SELL", "MARKET", p.quantity, true⟩,
         ⟨p.shortName, symbol, "BUY", "MARKET", p.quantity, true⟩]) ∧
    (∀ (g : GroupData) (ledger : List PositionPair) (symbol : String) (size : ℚ)
       (tcLev : Option ℚ) (now : ℕ) (pairEnvs : HedgePair → ℕ → AttemptEnv)
       (closeEnv : PositionPair → CloseEnv),
      ∀ pp ∈ (openGroupPositions g ledger symbol size tcLev now pairEnvs
          closeEnv).newPositions,
        pp.positionSizeUSDT = size) := by
  refine ⟨?_, ?_, ?_⟩
  · intro g pair symbol size tcLev now envs pp os h
    exact (openPairRetry_success _ _ _ _ _ _ _ _ _ h).2.2.2.2.2.2
  · intro g symbol env now p clo cso hopen hcl hcs hlo hso
    rw [closeGroupOne_closed_eq g symbol env now p clo cso hopen hcl hcs hlo hso]
  · intro g ledger symbol size tcLev now pairEnvs closeEnv pp hpp
    exact openGroupLoop_size_invariant g g.pairs.length symbol size tcLev now
      pairEnvs closeEnv g.pairs _ (by intro q hq; simp at hq) pp hpp

/-- C6 witness: the open-leg order shape instantiated at a concrete
successful opening. -/
theorem claim_C6_witness :
    ∃ osPre, [openLongOrder c6Pair "BTCUSDT" c6Qty,
              openShortOrder c6Pair "BTCUSDT" c6Qty] =
      osPre ++ [openLongOrder c6Pair "BTCUSDT" c6Pp.quantity,
                openShortOrder c6Pair "BTCUSDT" c6Pp.quantity] :=
  claim_C6_quantities.1 c6G c6Pair "BTCUSDT" 400 (some 10) 0 c6Env c6Pp
    [openLongOrder c6Pair "BTCUSDT" c6Qty, openShortOrder c6Pair "BTCUSDT" c6Qty]
    rfl

/-- `closePartialOne` only looks at the group through its account names. -/
theorem closePartialOne_accountNames (g g' : GroupData)
    (h : g.accountNames = g'.accountNames) (env : PositionPair → CloseEnv)
    (p : PositionPair) :
    closePartialOne g env p = closePartialOne g' env p := by
  unfold closePartialOne hasClient
  rw [h]

/-- A prefix of pairs that all open successfully just accumulates their
positions, `positionOpened` events and orders, then continues the loop. -/
theorem openGroupLoop_success_run (g0 : GroupData) (totalPairs : ℕ)
    (symbol : String) (size : ℚ) (tcLev : Option ℚ) (now : ℕ)
    (pairEnvs : HedgePair → ℕ → AttemptEnv) (closeEnv : PositionPair → CloseEnv)
    (ppOf : HedgePair → PositionPair) (osOf : HedgePair → List PlacedOrder) :
    ∀ (pre rest : List HedgePair) (acc : OpenAcc),
      (∀ p ∈ pre, openPairPositionWithRetry g0 p symbol size tcLev now
        (pairEnvs p) = (.success (ppOf p), osOf p)) →
      openGroupLoop g0 totalPairs symbol size tcLev now pairEnvs closeEnv
          (pre ++ rest) acc =
        openGroupLoop g0 totalPairs symbol size tcLev now pairEnvs closeEnv rest
          { acc with
              newPositions := acc.newPositions ++ pre.map ppOf,
              events := acc.events ++
                pre.map (fun p => Event.positionOpened (ppOf p)),
              orders := acc.orders ++ pre.flatMap osOf } := by
  intro pre
  induction pre with
  | nil =>
    intro rest acc hpre
    simp only [List.nil_append, List.map_nil, List.flatMap_nil, List.append_nil]
  | cons p pre' ih =>
    intro rest acc hpre
    have hp := hpre p (List.mem_cons_self p pre')
    simp only [List.cons_append, openGroupLoop, hp, List.append_eq]
    rw [ih rest _ (fun q hq => hpre q (List.mem_cons_of_mem p hq))]
    congr 1
    simp only [OpenAcc.mk.injEq, List.map_cons, List.flatMap_cons,
      List.append_assoc, List.singleton_append, List.cons_append,
      List.nil_append, and_self, and_true, true_and]

/-- One critical pair stops the loop: the quarantine fields are set
(`retryAfter = now + 10·60·1000`), `criticalGroupError` is emitted, and the
positions already opened this cycle go through the emergency close. -/
theorem openGroupLoop_critical (g0 : GroupData) (totalPairs : ℕ)
    (symbol : String) (size : ℚ) (tcLev : Option ℚ) (now : ℕ)
    (pairEnvs : HedgePair → ℕ → AttemptEnv) (closeEnv : PositionPair → CloseEnv)
    (pc : HedgePair) (post : List HedgePair) (acc : OpenAcc) (e : String)
    (osC : List PlacedOrder)
    (hret : openPairPositionWithRetry g0 pc symbol size tcLev now (pairEnvs pc) =
      (.critical e, osC)) :
    openGroupLoop g0 totalPairs symbol size tcLev now pairEnvs closeEnv
        (pc :: post) acc =
      { g := quarantinedState acc.g now,
        newPositions := (closePartialGroupPositions (quarantinedState acc.g now)
          acc.newPositions closeEnv).1,
        events := acc.events ++
          [Event.criticalGroupError pc.pairId (now + 10 * 60 * 1000)],
        orders := (acc.orders ++ osC) ++
          (closePartialGroupPositions (quarantinedState acc.g now)
            acc.newPositions closeEnv).2,
        insufficientCount := acc.insufficientCount,
        criticalOccurred := true } := by
  simp only [openGroupLoop, hret, quarantinedState]
  rcases hemp : acc.newPositions.isEmpty with hF | hT
  · simp only [hemp, Bool.false_eq_true, if_false]
  · have hnil : acc.newPositions = [] := by
      cases hn : acc.newPositions with
      | nil => rfl
      | cons x xs => rw [hn] at hemp; simp at hemp
    simp only [hemp, if_true, hnil, closePartialGroupPositions, List.map_nil,
      List.flatMap_nil, List.append_nil]

/-- C1: if, during the open phase, the pairs before `pc` all open
successfully and `pc` exhausts all 3 attempts with non-margin errors, then
the loop stops at `pc` (no event or position mentions `post`), the group is
quarantined — `isActive := false`, `criticalError := true`,
`retryAfter = now + 10 minutes` — `criticalGroupError` is emitted after the
prefix's `positionOpened` events, every `PositionPair` opened earlier in
the cycle is put through the emergency close (becoming
`"emergency_closed"` exactly when its own two close calls succeed and
staying `"open"` otherwise), and none of them is pushed to the ledger. -/
theorem claim_C1_critical_quarantine (g : GroupData) (ledger : List PositionPair)
    (symbol : String) (size : ℚ) (tcLev : Option ℚ) (now : ℕ)
    (pairEnvs : HedgePair → ℕ → AttemptEnv) (closeEnv : PositionPair → CloseEnv)
    (pre post : List HedgePair) (pc : HedgePair)
    (ppOf : HedgePair → PositionPair) (osOf : HedgePair → List PlacedOrder)
    (e1 e2 e3 : String) (os1 os2 os3 : List PlacedOrder)
    (hpairs : g.pairs = pre ++ pc :: post)
    (hpre : ∀ p ∈ pre, openPairPositionWithRetry g p symbol size tcLev now
      (pairEnvs p) = (.success (ppOf p), osOf p))
    (h1 : openPairAttempt g pc symbol size tcLev now (pairEnvs pc 1) =
      (.error e1, os1))
    (hm1 : isInsufficientMarginError e1 = false)
    (h2 : openPairAttempt g pc symbol size tcLev now (pairEnvs pc 2) =
      (.error e2, os2))
    (hm2 : isInsufficientMarginError e2 = false)
    (h3 : openPairAttempt g pc symbol size tcLev now (pairEnvs pc 3) =
      (.error e3, os3))
    (hm3 : isInsufficientMarginError e3 = false)
    (hfound : ∀ p ∈ pre, hasClient g (ppOf p).longName = true ∧
      hasClient g (ppOf p).shortName = true) :
    (openGroupPositions g ledger symbol size tcLev now pairEnvs
      closeEnv).state.isActive = false ∧
    (openGroupPositions g ledger symbol size tcLev now pairEnvs
      closeEnv).state.criticalError = true ∧
    (openGroupPositions g ledger symbol size tcLev now pairEnvs
      closeEnv).state.retryAfter = some (now + 10 * 60 * 1000) ∧
    (openGroupPositions g ledger symbol size tcLev now pairEnvs
      closeEnv).events =
      pre.map (fun p => Event.positionOpened (ppOf p)) ++
        [Event.criticalGroupError pc.pairId (now + 10 * 60 * 1000)] ∧
    (openGroupPositions g ledger symbol size tcLev now pairEnvs
      closeEnv).newPositions =
      pre.map (fun p => (closePartialOne g closeEnv (ppOf p)).1) ∧
    (∀ p ∈ pre,
      (closeBothOk (closeEnv (ppOf p)) = true →
        ((closePartialOne g closeEnv (ppOf p)).1).status = "emergency_closed") ∧
      (closeBothOk (closeEnv (ppOf p)) = false →
        ((closePartialOne g closeEnv (ppOf p)).1).status = "open")) ∧
    (openGroupPositions g ledger symbol size tcLev now pairEnvs
      closeEnv).ledger = ledger ∧
    (openGroupPositions g ledger symbol size tcLev now pairEnvs
      closeEnv).openedCount = pre.length := by
  have hret := openPairRetry_critical g pc symbol size tcLev now (pairEnvs pc)
    e1 e2 e3 os1 os2 os3 h1 hm1 h2 hm2 h3 hm3
  have hstep : openGroupLoop g g.pairs.length symbol size tcLev now pairEnvs
      closeEnv g.pairs
      { g := g, newPositions := [], events := [], orders := [],
        insufficientCount := 0, criticalOccurred := false } =
      { g := quarantinedState g now,
        newPositions := (closePartialGroupPositions (quarantinedState g now)
          (pre.map ppOf) closeEnv).1,
        events := pre.map (fun p => Event.positionOpened (ppOf p)) ++
          [Event.criticalGroupError pc.pairId (now + 10 * 60 * 1000)],
        orders := ((pre.flatMap osOf) ++ (os1 ++ (os2 ++ os3))) ++
          (closePartialGroupPositions (quarantinedState g now)
            (pre.map ppOf) closeEnv).2,
        insufficientCount := 0,
        criticalOccurred := true } := by
    rw [hpairs]
    rw [openGroupLoop_success_run g (pre ++ pc :: post).length symbol size
      tcLev now pairEnvs closeEnv ppOf osOf pre (pc :: post) _ hpre]
    rw [openGroupLoop_critical g (pre ++ pc :: post).length symbol size tcLev
      now pairEnvs closeEnv pc post _ e3 (os1 ++ (os2 ++ os3)) hret]
    simp only [List.nil_append]
  have hnewpos : (openGroupPositions g ledger symbol size tcLev now pairEnvs
      closeEnv).newPositions =
      pre.map (fun p => (closePartialOne g closeEnv (ppOf p)).1) := by
    simp only [openGroupPositions, hstep, closePartialGroupPositions,
      List.map_map]
    refine List.map_congr_left ?_
    intro p hp
    simp only [Function.comp_apply]
    rw [closePartialOne_accountNames (quarantinedState g now) g rfl]
  refine ⟨?_, ?_, ?_, ?_, hnewpos, ?_, ?_, ?_⟩
  · simp only [openGroupPositions, hstep, quarantinedState]
  · simp only [openGroupPositions, hstep, quarantinedState]
  · simp only [openGroupPositions, hstep, quarantinedState]
  · simp only [openGroupPositions, hstep]
  · intro p hp
    have hsucc := openPairRetry_success g p symbol size tcLev now (pairEnvs p)
      (ppOf p) (osOf p) (hpre p hp)
    have hstatus : (ppOf p).status = "open" := hsucc.1
    have hf := hfound p hp
    constructor
    · intro hok
      rw [closePartialOne_ok g closeEnv (ppOf p) hf.1 hf.2 hok]
    · intro hfail
      rw [closePartialOne_fail g closeEnv (ppOf p) hfail]
      exact hstatus
  · simp only [openGroupPositions, hstep, if_true]
  · simp only [openGroupPositions, hstep, hnewpos]
    simp only [openGroupPositions, hstep, closePartialGroupPositions,
      List.map_map, List.length_map]

/-- C1 witness: a concrete two-pair group whose first pair opens and whose
second pair fails all three attempts with `"Network timeout"`; the close
calls of the unwind succeed, so the opened pair ends `"emergency_closed"`
and the group is quarantined for 10 minutes (600000 ms from `now = 0`). -/
theorem claim_C1_witness :
    (openGroupPositions c1G [] "BTCUSDT" 400 (some 10) 0 c1Envs
      c1CloseEnv).state.retryAfter = some 600000 ∧
    (openGroupPositions c1G [] "BTCUSDT" 400 (some 10) 0 c1Envs
      c1CloseEnv).newPositions.map (fun p => p.status) = ["emergency_closed"] ∧
    (openGroupPositions c1G [] "BTCUSDT" 400 (some 10) 0 c1Envs
      c1CloseEnv).events =
      [Event.positionOpened c1Pp, Event.criticalGroupError 2 600000] := by
  have h := claim_C1_critical_quarantine c1G [] "BTCUSDT" 400 (some 10) 0
    c1Envs c1CloseEnv [c1Pair1] [] c1Pair2 (fun _ => c1Pp) (fun _ => c1Os)
    c1Err c1Err c1Err [] [] []
    rfl
    (by intro p hp; fin_cases hp; rfl)
    rfl (by decide) rfl (by decide) rfl (by decide)
    (by intro p hp; fin_cases hp; exact ⟨by decide, by decide⟩)
  refine ⟨?_, ?_, ?_⟩
  · rw [h.2.2.1]
  · rw [h.2.2.2.2.1]
    rfl
  · rw [h.2.2.2.1]
    rfl

end AsterCli
